import Mathlib

/-!
Shallow embedding of the resource-resolution layer of the dioxus-typst
repository (src/lib.rs): path normalization, the caller-supplied file
table, the package cache with its memory/disk/network fallback chain,
the package downloader, and the clock query.

Modelling conventions:
* Rust `String` and `&str` are modelled as `List Char` (Lean 4 strings
  are themselves wrappers around `List Char`, so string literals are
  used via `.data`).
* Rust `Vec<u8>` and typst `Bytes` are modelled as `List Nat`;
  `Bytes::new` is the identity on content (`bytesNew`).
* Rust `HashMap` is modelled as an association list with first-match
  lookup; `HashMap::insert` (which replaces an existing binding) is
  `insertKV`, which prepends the new binding and drops old ones.
* Interior mutability (the `Arc<RwLock<...>>` package cache) is
  modelled by explicit state passing: `get_package_file` returns both
  its result and the new cache contents, together with effect flags
  recording whether the downloader ran and which URL was requested.
* Filesystem and network are modelled as an explicit environment
  (`DownloadEnv`) supplying the cache-root directory, directory
  existence, recursive directory reads, and HTTP responses already
  split into tar entries.
-/

namespace DioxusTypst

/-- Rust strings, modelled as lists of characters. -/
abbrev RStr := List Char

/-- Byte sequences (`Vec<u8>` and typst `Bytes`). -/
abbrev ByteSeq := List Nat

/-- Model of `Bytes::new` / `.to_vec()` / `.clone()`: identity on content. -/
def bytesNew (v : ByteSeq) : ByteSeq := v

/-- First-match lookup in an association list (model of `HashMap::get`). -/
def lookupKV {α β : Type} [DecidableEq α] (k : α) : List (α × β) → Option β
  | [] => none
  | (k', v) :: rest => if k' = k then some v else lookupKV k rest

/-- Model of `HashMap::insert`: binds `k` to `v`, replacing any previous
binding for `k`. -/
def insertKV {α β : Type} [DecidableEq α] (k : α) (v : β) (m : List (α × β)) :
    List (α × β) :=
  (k, v) :: m.filter (fun kv => decide (kv.1 ≠ k))

/-- Map a function over the values of an association list. -/
def mapVals {α β γ : Type} (f : β → γ) (m : List (α × β)) : List (α × γ) :=
  m.map (fun kv => (kv.1, f kv.2))

/-- Model of Rust `str::starts_with(c: char)`: true when the first
character is `c`. -/
def starts_with (p : RStr) (c : Char) : Bool :=
  match p with
  | [] => false
  | x :: _ => x == c

/-- Model of `normalize_path` (src/lib.rs lines 52-59): ensure the path
starts with a leading slash; already-rooted paths are returned unchanged. -/
def normalize_path (path : RStr) : RStr :=
  if starts_with path '/' then path else '/' :: path

theorem lookupKV_insert_self {α β : Type} [DecidableEq α] (k : α) (v : β)
    (m : List (α × β)) : lookupKV k (insertKV k v m) = some v := by
  simp [lookupKV, insertKV]

theorem lookupKV_filter_ne {α β : Type} [DecidableEq α] {k k' : α}
    (m : List (α × β)) (h : k' ≠ k) :
    lookupKV k' (m.filter (fun kv => decide (kv.1 ≠ k))) = lookupKV k' m := by
  induction m with
  | nil => rfl
  | cons kv rest ih =>
      simp only [ne_eq, decide_not] at ih
      by_cases hk : kv.1 = k
      · simp [List.filter_cons, lookupKV, hk, h, Ne.symm h, ih]
      · by_cases hk' : kv.1 = k'
        · simp [List.filter_cons, lookupKV, hk, hk', h, Ne.symm h]
        · simp [List.filter_cons, lookupKV, hk, hk', h, ih]

theorem lookupKV_insert_ne {α β : Type} [DecidableEq α] {k k' : α} (v : β)
    (m : List (α × β)) (h : k' ≠ k) :
    lookupKV k' (insertKV k v m) = lookupKV k' m := by
  have step : lookupKV k' (insertKV k v m) =
      lookupKV k' (m.filter (fun kv => decide (kv.1 ≠ k))) := by
    simp [insertKV, lookupKV, Ne.symm h]
  rw [step, lookupKV_filter_ne m h]

theorem lookupKV_mapVals {α β γ : Type} [DecidableEq α] (f : β → γ) (k : α)
    (m : List (α × β)) : lookupKV k (mapVals f m) = (lookupKV k m).map f := by
  induction m with
  | nil => simp [lookupKV, mapVals]
  | cons kv rest ih =>
      by_cases hk : kv.1 = k
      · simp [lookupKV, mapVals, hk]
      · simp only [lookupKV, mapVals, List.map, hk, if_neg]
        simpa [mapVals] using ih

theorem starts_with_normalize (p : RStr) :
    starts_with (normalize_path p) '/' = true := by
  cases p with
  | nil => rfl
  | cons c cs =>
      by_cases h : (c == '/') = true
      · simp [normalize_path, starts_with, h]
      · simp [normalize_path, starts_with, h]

theorem normalize_of_rooted (p : RStr) (h : starts_with p '/' = true) :
    normalize_path p = p := by
  simp [normalize_path, h]

/-- Model of typst `PackageSpec`: namespace, name and a semver triple;
structural equality, usable as a map key. -/
structure PackageSpec where
  nspace : RStr
  name : RStr
  version : Nat × Nat × Nat
deriving DecidableEq

/-- A file set: mapping from normalized path to byte content. -/
abbrev FileSet := List (RStr × ByteSeq)

/-- Model of `CompileOptions` (src/lib.rs lines 75-81). -/
structure CompileOptions where
  files : FileSet
  packages : List (PackageSpec × FileSet)

/-- Model of `CompileOptions::new` / `Default`. -/
def CompileOptions.new : CompileOptions := ⟨[], []⟩

/-- Model of `CompileOptions::with_file` (lines 101-105): inserts the
content under the normalized path. -/
def CompileOptions.with_file (o : CompileOptions) (path : RStr)
    (content : ByteSeq) : CompileOptions :=
  { o with files := insertKV (normalize_path path) content o.files }

/-- Model of `CompileOptions::with_package` (lines 124-132): normalizes
every path of the package file set and inserts it under the spec. -/
def CompileOptions.with_package (o : CompileOptions) (spec : PackageSpec)
    (fs : FileSet) : CompileOptions :=
  { o with packages :=
      insertKV spec (fs.map (fun pc => (normalize_path pc.1, pc.2))) o.packages }

/-- Model of typst `PackageError` (the constructors used by src/lib.rs). -/
inductive PackageError where
  | notFound (spec : PackageSpec)
  | networkFailed
  | malformedArchive
  | other
deriving DecidableEq

/-- Model of typst `FileError` (the constructors used by src/lib.rs). -/
inductive FileError where
  | notFound (path : RStr)
  | invalidUtf8
  | pkg (e : PackageError)
deriving DecidableEq

/-- Model of typst `FileId`: an interned pair of an optional package spec
and a rooted virtual path, compared structurally. `FileId::new(None,
VirtualPath::new(p))` and any later plain-path identifier for `p` are the
same interned id. -/
structure FileId where
  package : Option PackageSpec
  vpath : RStr
deriving DecidableEq

/-- Model of typst `Source`: a file id together with its text. -/
structure Source where
  id : FileId
  text : RStr
deriving DecidableEq

/-- Model of `Source::new`. -/
def Source.new (id : FileId) (text : RStr) : Source := ⟨id, text⟩

/-! ### Downloader (src/lib.rs lines 157-268, feature `download-packages`)

The filesystem and the network are modelled as an explicit environment.
`http` returns the tar entries of the gzip-decompressed response body for
a URL (or the network/archive error the code maps such failures to), and
`readDir` returns the recursive regular-file contents of a directory
re-rooted to `/` (or a `PackageError.other` read failure), mirroring
`read_package_dir`. The best-effort disk write-back (`fs::write` with
errors swallowed) has no observable effect on results and is omitted. -/

/-- One entry of a tar archive: its relative path, whether the header says
it is a regular file, and its content. -/
structure TarEntry where
  path : RStr
  isFile : Bool
  content : ByteSeq

/-- The environment a download runs in: cache root directory (model of
`dirs::cache_dir()`), directory existence, recursive directory reads and
HTTP fetches of already-unpacked archives. -/
structure DownloadEnv where
  cacheRoot : Option RStr
  dirExists : RStr → Bool
  readDir : RStr → Except PackageError FileSet
  http : RStr → Except PackageError (List TarEntry)

/-- Path join, modelling `PathBuf::join` on slash-separated paths. -/
def joinPath (a b : RStr) : RStr := a ++ '/' :: b

/-- Decimal rendering of a natural number as a character list. -/
def natStr (n : Nat) : RStr := (Nat.repr n).data

/-- Rendering of a package version triple, modelling
`PackageVersion::to_string` (`major.minor.patch`). -/
def versionStr (v : Nat × Nat × Nat) : RStr :=
  natStr v.1 ++ '.' :: natStr v.2.1 ++ '.' :: natStr v.2.2

/-- Model of `downloader::cache_dir` (lines 166-168):
`dirs::cache_dir()/typst/packages`. -/
def cache_dir (env : DownloadEnv) : Option RStr :=
  env.cacheRoot.map (fun p => joinPath (joinPath p "typst".data) "packages".data)

/-- Model of `downloader::package_dir` (lines 170-176):
`cache_dir()/namespace/name/version`. -/
def package_dir (env : DownloadEnv) (spec : PackageSpec) : Option RStr :=
  (cache_dir env).map (fun p =>
    joinPath (joinPath (joinPath p spec.nspace) spec.name) (versionStr spec.version))

/-- The registry URL built at lines 185-188:
`https://packages.typst.org/preview/<name>-<version>.tar.gz`. -/
def packageUrl (spec : PackageSpec) : RStr :=
  "https://packages.typst.org/preview/".data ++ spec.name ++ '-' ::
    versionStr spec.version ++ ".tar.gz".data

/-- The archive-extraction loop of `download_package` (lines 206-235):
keep only regular-file entries, re-root each path to `/`, and insert into
the file map (later entries replace earlier ones, as `HashMap::insert`
does). -/
def extractEntries (entries : List TarEntry) : FileSet :=
  entries.foldl
    (fun files e => if e.isFile then insertKV ('/' :: e.path) e.content files
      else files)
    []

/-- Result of a download attempt, together with the URL requested over
the network, if any. -/
structure DownloadOut where
  result : Except PackageError FileSet
  requested : Option RStr

/-- The network branch of `download_package`: GET the registry URL and
unpack the archive. -/
def downloadFromNet (env : DownloadEnv) (spec : PackageSpec) : DownloadOut :=
  let url := packageUrl spec
  match env.http url with
  | .error e => ⟨.error e, some url⟩
  | .ok entries => ⟨.ok (extractEntries entries), some url⟩

/-- Model of `downloader::download_package` (lines 178-238): if the
package directory exists on disk, read it recursively and return with no
network request; otherwise fetch and unpack the archive from the
registry. -/
def download_package (env : DownloadEnv) (spec : PackageSpec) : DownloadOut :=
  match package_dir env spec with
  | some dir =>
      if env.dirExists dir then ⟨env.readDir dir, none⟩
      else downloadFromNet env spec
  | none => downloadFromNet env spec

/-! ### UTF-8 decoding

Model of Rust `String::from_utf8`: strict RFC 3629 validation (no
overlong forms, no surrogates, nothing above U+10FFFF), returning the
decoded character list on success and nothing on invalid input. -/

/-- Is `b` a UTF-8 continuation byte (`0x80..=0xBF`)? -/
def isCont (b : Nat) : Bool := decide (0x80 ≤ b ∧ b ≤ 0xBF)

/-- Admissible second byte of a three-byte sequence starting with `b0`. -/
def cont2ok (b0 b1 : Nat) : Bool :=
  if b0 = 0xE0 then decide (0xA0 ≤ b1 ∧ b1 ≤ 0xBF)
  else if b0 = 0xED then decide (0x80 ≤ b1 ∧ b1 ≤ 0x9F)
  else isCont b1

/-- Admissible second byte of a four-byte sequence starting with `b0`. -/
def cont3ok (b0 b1 : Nat) : Bool :=
  if b0 = 0xF0 then decide (0x90 ≤ b1 ∧ b1 ≤ 0xBF)
  else if b0 = 0xF4 then decide (0x80 ≤ b1 ∧ b1 ≤ 0x8F)
  else isCont b1

/-- Fueled UTF-8 decoding loop; the fuel only needs to be at least the
number of decoded characters, so the byte length suffices. -/
def utf8DecodeAux : Nat → List Nat → Option (List Char)
  | _, [] => some []
  | 0, _ :: _ => none
  | fuel + 1, b0 :: rest =>
    if b0 ≤ 0x7F then
      (utf8DecodeAux fuel rest).map (fun cs => Char.ofNat b0 :: cs)
    else if 0xC2 ≤ b0 ∧ b0 ≤ 0xDF then
      match rest with
      | b1 :: rest1 =>
          if isCont b1 then
            (utf8DecodeAux fuel rest1).map
              (fun cs => Char.ofNat ((b0 - 0xC0) * 0x40 + (b1 - 0x80)) :: cs)
          else none
      | [] => none
    else if 0xE0 ≤ b0 ∧ b0 ≤ 0xEF then
      match rest with
      | b1 :: b2 :: rest2 =>
          if cont2ok b0 b1 && isCont b2 then
            (utf8DecodeAux fuel rest2).map
              (fun cs => Char.ofNat
                ((b0 - 0xE0) * 0x1000 + (b1 - 0x80) * 0x40 + (b2 - 0x80)) :: cs)
          else none
      | _ => none
    else if 0xF0 ≤ b0 ∧ b0 ≤ 0xF4 then
      match rest with
      | b1 :: b2 :: b3 :: rest3 =>
          if cont3ok b0 b1 && isCont b2 && isCont b3 then
            (utf8DecodeAux fuel rest3).map
              (fun cs => Char.ofNat
                ((b0 - 0xF0) * 0x40000 + (b1 - 0x80) * 0x1000 +
                  (b2 - 0x80) * 0x40 + (b3 - 0x80)) :: cs)
          else none
      | _ => none
    else none

/-- Model of `String::from_utf8` on the byte content. -/
def utf8Decode (bs : ByteSeq) : Option RStr := utf8DecodeAux bs.length bs

/-! ### The compilation world (src/lib.rs lines 271-432) -/

/-- The package cache contents: what is inside the
`Arc<RwLock<HashMap<PackageSpec, HashMap<String, Bytes>>>>`. -/
abbrev PkgCache := List (PackageSpec × FileSet)

/-- Model of `CompileWorld` (lines 272-281), restricted to the fields the
resolution layer reads: the main source, the static file table, the
package cache contents and the download-capability flag. The `library`,
`book` and `fonts` fields only feed the compiler and the font query and
carry no resolution logic. -/
structure CompileWorld where
  main : Source
  files : FileSet
  packages : PkgCache
  allowDownloads : Bool

/-- The file id of the main document:
`FileId::new(None, VirtualPath::new("/main.typ"))` (line 288). -/
def mainFileId : FileId := ⟨none, "/main.typ".data⟩

/-- Model of `CompileWorld::new` (lines 285-325): wrap the caller files
and packages into `Bytes`, build the main source under `mainFileId`, and
allow downloads. -/
def CompileWorld.new (source : RStr) (options : CompileOptions) : CompileWorld :=
  { main := Source.new mainFileId source
    files := mapVals bytesNew options.files
    packages := mapVals (mapVals bytesNew) options.packages
    allowDownloads := true }

/-- Model of `CompileWorld::with_downloads` (lines 330-333). -/
def CompileWorld.with_downloads (w : CompileWorld) (allow : Bool) : CompileWorld :=
  { w with allowDownloads := allow }

/-- Joint lookup under the read lock: the package entry, then the path
inside it (lines 337-344). -/
def lookup2 (cache : PkgCache) (spec : PackageSpec) (path : RStr) :
    Option ByteSeq :=
  (lookupKV spec cache).bind (fun fs => lookupKV path fs)

/-- Result of `get_package_file`: the returned value, the package cache
contents after the call, whether `download_package` ran, and the URL of
the HTTP request it issued, if any. -/
structure GetOut where
  result : Except FileError ByteSeq
  packages : PkgCache
  fetched : Bool
  requested : Option RStr

/-- Model of `CompileWorld::get_package_file` (lines 336-366): fast path
under the read lock; on a miss, when downloads are allowed, run the
downloader, compute the result for the requested path, then insert the
whole converted file set under the spec (replacing any previous entry);
when downloads are not possible, fail with a package-not-found error. -/
def get_package_file (w : CompileWorld) (env : DownloadEnv)
    (package : PackageSpec) (path : RStr) : GetOut :=
  match lookup2 w.packages package path with
  | some content => ⟨.ok content, w.packages, false, none⟩
  | none =>
    if w.allowDownloads then
      let dl := download_package env package
      match dl.result with
      | .error e => ⟨.error (.pkg e), w.packages, true, dl.requested⟩
      | .ok downloaded =>
        let result : Except FileError ByteSeq :=
          match lookupKV path downloaded with
          | some c => .ok (bytesNew c)
          | none => .error (.notFound path)
        ⟨result, insertKV package (mapVals bytesNew downloaded) w.packages,
          true, dl.requested⟩
    else ⟨.error (.pkg (.notFound package)), w.packages, false, none⟩

/-- Result of a `World::source` call. -/
structure SourceOut where
  result : Except FileError Source
  packages : PkgCache
  fetched : Bool
  requested : Option RStr

/-- Model of `World::source` (lines 382-395): the main id returns the
main source; package ids resolve bytes through `get_package_file` and
decode them as UTF-8, with decoding failure mapped to `invalidUtf8`;
plain non-main paths fail with `notFound`. -/
def CompileWorld.source (w : CompileWorld) (env : DownloadEnv) (id : FileId) :
    SourceOut :=
  if id = w.main.id then ⟨.ok w.main, w.packages, false, none⟩
  else
    match id.package with
    | some package =>
        let g := get_package_file w env package id.vpath
        match g.result with
        | .error e => ⟨.error e, g.packages, g.fetched, g.requested⟩
        | .ok content =>
            match utf8Decode content with
            | none => ⟨.error .invalidUtf8, g.packages, g.fetched, g.requested⟩
            | some text =>
                ⟨.ok (Source.new id text), g.packages, g.fetched, g.requested⟩
    | none => ⟨.error (.notFound id.vpath), w.packages, false, none⟩

/-- Model of `World::file` (lines 397-408): package ids go through
`get_package_file`; plain paths look up the static file table. -/
def CompileWorld.file (w : CompileWorld) (env : DownloadEnv) (id : FileId) :
    GetOut :=
  match id.package with
  | some package => get_package_file w env package id.vpath
  | none =>
      match lookupKV id.vpath w.files with
      | some b => ⟨.ok b, w.packages, false, none⟩
      | none => ⟨.error (.notFound id.vpath), w.packages, false, none⟩

/-! ### Clock (`World::today`, src/lib.rs lines 414-431)

The wall clock is modelled as an environment: `localAt secs` gives the
naive local calendar components of the current instant viewed at the
fixed UTC offset of `secs` seconds (`now.with_timezone(&offset)
.naive_local()`), and `localDefault` gives `now.naive_local()` in the
system time zone. The numeric conversions of the Rust code are kept
exactly: the offset in hours is multiplied in `i64` and then cast with
`as i32`, which truncates to 32 bits. -/

/-- Calendar components of a chrono `NaiveDateTime` as the code reads
them: `year()` is an `i32`, the other accessors return `u32`. -/
structure NaiveDT where
  year : Int
  month : Nat
  day : Nat
  hour : Nat
  minute : Nat
  second : Nat

/-- The clock environment. -/
structure Clock where
  localAt : Int → NaiveDT
  localDefault : NaiveDT

/-- Twos-complement truncation of an integer to 64 bits (Rust release
semantics of `i64` arithmetic). -/
def toI64 (n : Int) : Int := (n + 2 ^ 63) % 2 ^ 64 - 2 ^ 63

/-- Twos-complement truncation of an integer to 32 bits (the `as i32`
cast). -/
def toI32 (n : Int) : Int := (n + 2 ^ 31) % 2 ^ 32 - 2 ^ 31

/-- Model of `chrono::FixedOffset::east_opt`: defined exactly for
offsets strictly between -86400 and 86400 seconds. -/
def east_opt (secs : Int) : Option Int :=
  if -86400 < secs ∧ secs < 86400 then some secs else none

/-- Model of `u32::try_into::<u8>()`: succeeds iff the value fits. -/
def tryIntoU8 (n : Nat) : Option Nat := if n ≤ 255 then some n else none

/-- The datetime typst receives. -/
structure Datetime where
  year : Int
  month : Nat
  day : Nat
  hour : Nat
  minute : Nat
  second : Nat
deriving DecidableEq

/-- Gregorian leap year test. -/
def isLeap (y : Int) : Bool := (y % 4 == 0 && y % 100 != 0) || y % 400 == 0

/-- Lengths of the Gregorian months. -/
def daysInMonth (y : Int) (m : Nat) : Nat :=
  if m = 2 then (if isLeap y then 29 else 28)
  else if m = 4 ∨ m = 6 ∨ m = 9 ∨ m = 11 then 30
  else 31

/-- Model of typst `Datetime::from_ymd_hms`, which builds a
`time::Date` and `time::Time` and fails on any invalid component (month
outside 1..=12, day outside the month, out-of-range year, hour, minute
or second). -/
def from_ymd_hms (year : Int) (month day hour minute second : Nat) :
    Option Datetime :=
  if -9999 ≤ year ∧ year ≤ 9999 ∧ 1 ≤ month ∧ month ≤ 12 ∧ 1 ≤ day ∧
      day ≤ daysInMonth year month ∧ hour ≤ 23 ∧ minute ≤ 59 ∧ second ≤ 59
  then some ⟨year, month, day, hour, minute, second⟩
  else none

/-- The conversion pipeline at lines 423-430: each `u32` component is
narrowed to `u8` and the result is handed to `Datetime::from_ymd_hms`. -/
def datetimeFrom (now : NaiveDT) : Option Datetime :=
  (tryIntoU8 now.month).bind fun m =>
  (tryIntoU8 now.day).bind fun d =>
  (tryIntoU8 now.hour).bind fun h =>
  (tryIntoU8 now.minute).bind fun mi =>
  (tryIntoU8 now.second).bind fun s =>
  from_ymd_hms now.year m d h mi s

/-- Model of `World::today` (lines 414-431): with an offset, build a
fixed offset from `(hours * 3600) as i32` (failing when `east_opt`
rejects it) and read the clock there; without one, read the local
clock. -/
def today (clock : Clock) (offset : Option Int) : Option Datetime :=
  match offset with
  | some hours =>
      match east_opt (toI32 (toI64 (hours * 3600))) with
      | none => none
      | some secs => datetimeFrom (clock.localAt secs)
  | none => datetimeFrom clock.localDefault

/-! ### Concrete instances used to instantiate the theorems -/

/-- An environment with no cache directory, no disk state and a network
that always fails: the fully offline environment. -/
def envOffline : DownloadEnv :=
  ⟨none, fun _ => false, fun _ => .error .other, fun _ => .error .networkFailed⟩

/-- The demo package spec `@preview/demo:0.1.0`. -/
def specDemo : PackageSpec := ⟨"preview".data, "demo".data, (0, 1, 0)⟩

/-- An environment whose network serves a one-file archive for any URL
and whose disk cache is empty. -/
def envNetDemo : DownloadEnv :=
  { cacheRoot := some "/home/user/.cache".data
    dirExists := fun _ => false
    readDir := fun _ => .error .other
    http := fun _ => .ok [⟨"lib.typ".data, true, [104, 105]⟩,
                          ⟨"sub".data, false, []⟩] }

/-- A world whose cache is pre-seeded with `@preview/demo:0.1.0`
containing only `/a ↦ [1]`. -/
def worldSeededA : CompileWorld :=
  CompileWorld.new "= Title".data
    (CompileOptions.new.with_package specDemo [("/a".data, [1])])

/-- An environment whose package directory exists on disk and reads back
a one-file set. -/
def envDiskDemo : DownloadEnv :=
  { cacheRoot := some "/home/user/.cache".data
    dirExists := fun _ => true
    readDir := fun _ => .ok [("/x.typ".data, [7])]
    http := fun _ => .error .networkFailed }

/-- A world with an empty caller file set and an empty package cache. -/
def worldEmpty : CompileWorld := CompileWorld.new "= Title".data CompileOptions.new

/-- A world pre-seeded with a package whose `/bad.typ` holds invalid
UTF-8 and whose `/good.typ` holds the text `hi`. -/
def worldUtf8 : CompileWorld :=
  CompileWorld.new "x".data
    (CompileOptions.new.with_package specDemo
      [("/bad.typ".data, [255]), ("/good.typ".data, [104, 105])])

/-- A clock stuck at 2024-01-01 00:00:00 regardless of offset. -/
def clockConst : Clock :=
  ⟨fun _ => ⟨2024, 1, 1, 0, 0, 0⟩, ⟨2024, 1, 1, 0, 0, 0⟩⟩

/-! ### Helper lemmas -/

theorem lookup2_insert_self (cache : PkgCache) (pkg : PackageSpec)
    (fs : FileSet) (path : RStr) :
    lookup2 (insertKV pkg fs cache) pkg path = lookupKV path fs := by
  simp [lookup2, lookupKV_insert_self]

theorem lookup2_of_spec_none {cache : PkgCache} {pkg : PackageSpec}
    (h : lookupKV pkg cache = none) (path : RStr) :
    lookup2 cache pkg path = none := by
  simp [lookup2, h]

theorem gpf_hit {w : CompileWorld} {pkg : PackageSpec} {path : RStr}
    {c : ByteSeq} (env : DownloadEnv) (h : lookup2 w.packages pkg path = some c) :
    get_package_file w env pkg path = ⟨.ok c, w.packages, false, none⟩ := by
  simp [get_package_file, h]

theorem gpf_noDownloads {w : CompileWorld} {pkg : PackageSpec} {path : RStr}
    (env : DownloadEnv) (hw : w.allowDownloads = false)
    (hmiss : lookup2 w.packages pkg path = none) :
    get_package_file w env pkg path =
      ⟨.error (.pkg (.notFound pkg)), w.packages, false, none⟩ := by
  simp [get_package_file, hmiss, hw]

theorem gpf_miss_dl {w : CompileWorld} {env : DownloadEnv} {pkg : PackageSpec}
    {D : FileSet} (path : RStr) (hw : w.allowDownloads = true)
    (hmiss : lookup2 w.packages pkg path = none)
    (hdl : (download_package env pkg).result = .ok D) :
    get_package_file w env pkg path =
      ⟨(match lookupKV path D with
        | some c => .ok (bytesNew c)
        | none => .error (.notFound path)),
       insertKV pkg (mapVals bytesNew D) w.packages, true,
       (download_package env pkg).requested⟩ := by
  simp [get_package_file, hmiss, hw, hdl]

theorem mem_insertKV {α β : Type} [DecidableEq α] {kv : α × β} {k : α}
    {v : β} {m : List (α × β)} (h : kv ∈ insertKV k v m) :
    kv = (k, v) ∨ kv ∈ m := by
  rcases List.mem_cons.mp h with h | h
  · exact Or.inl h
  · exact Or.inr (List.mem_of_mem_filter h)

theorem extract_foldl_mem (l : List TarEntry) :
    ∀ (acc : FileSet) (kv : RStr × ByteSeq),
      kv ∈ l.foldl
        (fun files e =>
          if e.isFile then insertKV ('/' :: e.path) e.content files else files)
        acc →
      kv ∈ acc ∨ ∃ e ∈ l, e.isFile = true ∧ kv = ('/' :: e.path, e.content) := by
  induction l with
  | nil => intro acc kv h; exact Or.inl h
  | cons e rest ih =>
      intro acc kv h
      rcases ih _ kv h with hacc | ⟨e', he', hf, hkv⟩
      · simp only [] at hacc
        by_cases hef : e.isFile = true
        · rw [if_pos hef] at hacc
          rcases mem_insertKV hacc with heq | hm
          · exact Or.inr ⟨e, List.mem_cons_self e rest, hef, heq⟩
          · exact Or.inl hm
        · rw [if_neg hef] at hacc
          exact Or.inl hacc
      · exact Or.inr ⟨e', List.mem_cons_of_mem e he', hf, hkv⟩

/-! ### Claim theorems -/

/-- C8: for all path strings `p`, `normalize_path p` starts with `/`,
`normalize_path` is idempotent, and it returns already-rooted paths
unchanged; it is a pure total function with no failure mode (it is a
total Lean function). -/
theorem c8_normalize_contract (p : RStr) :
    starts_with (normalize_path p) '/' = true ∧
    normalize_path (normalize_path p) = normalize_path p ∧
    (starts_with p '/' = true → normalize_path p = p) := by
  refine ⟨starts_with_normalize p, ?_, normalize_of_rooted p⟩
  exact normalize_of_rooted _ (starts_with_normalize p)

/-- Witness for C8 at the concrete path `/logo.png`. -/
theorem c8_normalize_contract_witness :
    normalize_path "/logo.png".data = "/logo.png".data :=
  (c8_normalize_contract "/logo.png".data).2.2 (by decide)

/-- C4: for every caller-supplied file set, `resolve_bytes` on the plain
path inserted via `with_file` (normalized) returns exactly the inserted
bytes, and `resolve_bytes` on a plain path absent from the file set fails
with `notFound`. -/
theorem c4_with_file_roundtrip (src : RStr) (o : CompileOptions) (p : RStr)
    (c : ByteSeq) (env : DownloadEnv) (q : RStr)
    (habs : lookupKV q (o.with_file p c).files = none) :
    ((CompileWorld.new src (o.with_file p c)).file env
        ⟨none, normalize_path p⟩).result = .ok (bytesNew c) ∧
    ((CompileWorld.new src (o.with_file p c)).file env ⟨none, q⟩).result =
      .error (.notFound q) := by
  constructor
  · simp [CompileWorld.file, CompileWorld.new, CompileOptions.with_file,
      lookupKV_mapVals, lookupKV_insert_self]
  · simp [CompileWorld.file, CompileWorld.new, lookupKV_mapVals, habs]

/-- Witness for C4: a resolver seeded with `/logo.png ↦ [1, 2, 3]`
returns those bytes for `/logo.png` and `notFound` for `/missing.png`. -/
theorem c4_with_file_roundtrip_witness :
    ((CompileWorld.new "x".data (CompileOptions.new.with_file
        "/logo.png".data [1, 2, 3])).file envOffline
        ⟨none, normalize_path "/logo.png".data⟩).result = .ok (bytesNew [1, 2, 3]) ∧
    ((CompileWorld.new "x".data (CompileOptions.new.with_file
        "/logo.png".data [1, 2, 3])).file envOffline
        ⟨none, "/missing.png".data⟩).result =
      .error (.notFound "/missing.png".data) :=
  c4_with_file_roundtrip "x".data CompileOptions.new "/logo.png".data
    [1, 2, 3] envOffline "/missing.png".data (by decide)

/-- C2 counterexample: with main text `= Title`, `resolve_source` on the
plain-path identifier `/main.typ` returns the main text rather than
failing with `notFound`: the main id and the plain-path id are the same
interned identifier. -/
theorem c2_counterexample :
    (worldEmpty.source envOffline ⟨none, "/main.typ".data⟩).result =
      .ok (Source.new mainFileId "= Title".data) ∧
    (worldEmpty.source envOffline ⟨none, "/main.typ".data⟩).result ≠
      .error (.notFound "/main.typ".data) := by
  refine ⟨rfl, fun h => ?_⟩
  rw [show (worldEmpty.source envOffline ⟨none, "/main.typ".data⟩).result =
      .ok (Source.new mainFileId "= Title".data) from rfl] at h
  exact Except.noConfusion h

/-- C2 (amended): `resolve_source` on the main id returns the main text
verbatim; the main id is exactly the plain-path identifier
`(no package, /main.typ)`, so `resolve_source` on that plain path also
returns the main text — the main document IS addressable as the plain
file `/main.typ`. -/
theorem c2_main_source (src : RStr) (o : CompileOptions) (env : DownloadEnv) :
    mainFileId = ⟨none, "/main.typ".data⟩ ∧
    ((CompileWorld.new src o).source env mainFileId).result =
      .ok (Source.new mainFileId src) ∧
    ((CompileWorld.new src o).source env ⟨none, "/main.typ".data⟩).result =
      .ok (Source.new mainFileId src) := by
  refine ⟨rfl, ?_, ?_⟩ <;>
    simp [CompileWorld.source, CompileWorld.new, Source.new, mainFileId]

/-- C1 counterexample: the cache of `worldSeededA` already holds
`@preview/demo:0.1.0` with `/a ↦ [1]`; after a lookup of `/lib.typ`
triggers a download whose archive does not contain `/a`, the merge has
replaced the whole entry, and `/a` is gone — the existing entry is not
kept. -/
theorem c1_counterexample :
    lookup2 worldSeededA.packages specDemo "/a".data = some [1] ∧
    lookup2 (get_package_file worldSeededA envNetDemo specDemo
        "/lib.typ".data).packages specDemo "/a".data = none := by
  constructor <;> rfl

/-- C1 (amended): when a downloaded file set is merged into the package
cache under a spec, the merge stores the converted set unconditionally,
replacing any existing entry for that spec — last writer wins, not
first writer wins. -/
theorem c1_merge_replaces (w : CompileWorld) (env : DownloadEnv)
    (pkg : PackageSpec) (path : RStr) (D : FileSet)
    (hw : w.allowDownloads = true)
    (hmiss : lookup2 w.packages pkg path = none)
    (hdl : (download_package env pkg).result = .ok D) :
    (get_package_file w env pkg path).packages =
      insertKV pkg (mapVals bytesNew D) w.packages ∧
    lookupKV pkg (get_package_file w env pkg path).packages =
      some (mapVals bytesNew D) := by
  rw [gpf_miss_dl path hw hmiss hdl]
  exact ⟨rfl, lookupKV_insert_self pkg _ w.packages⟩

/-- Witness for C1 (amended) at the concrete seeded world: the downloaded
set replaces the seeded entry. -/
theorem c1_merge_replaces_witness :
    (get_package_file worldSeededA envNetDemo specDemo "/lib.typ".data).packages =
      insertKV specDemo
        (mapVals bytesNew [("/lib.typ".data, [104, 105])])
        worldSeededA.packages :=
  (c1_merge_replaces worldSeededA envNetDemo specDemo "/lib.typ".data
    [("/lib.typ".data, [104, 105])] rfl rfl rfl).1

/-- C3: after a successful fetch for a spec has been merged into the
cache, every subsequent `get(spec, path)` for a path present in the
fetched set returns the same bytes through the read-lock fast path: the
cache is unchanged, the downloader is not invoked and no network request
is made. -/
theorem c3_cache_hit_after_fetch (w : CompileWorld) (env : DownloadEnv)
    (pkg : PackageSpec) (path0 : RStr) (D : FileSet)
    (hw : w.allowDownloads = true)
    (hmiss : lookup2 w.packages pkg path0 = none)
    (hdl : (download_package env pkg).result = .ok D)
    (path : RStr) (c : ByteSeq) (hpath : lookupKV path D = some c)
    (env' : DownloadEnv) :
    get_package_file
        { w with packages := (get_package_file w env pkg path0).packages }
        env' pkg path =
      ⟨.ok (bytesNew c), (get_package_file w env pkg path0).packages,
        false, none⟩ := by
  have hpk : (get_package_file w env pkg path0).packages =
      insertKV pkg (mapVals bytesNew D) w.packages := by
    rw [gpf_miss_dl path0 hw hmiss hdl]
  rw [hpk]
  refine gpf_hit env' ?_
  rw [show ({ w with packages := insertKV pkg (mapVals bytesNew D) w.packages}
      : CompileWorld).packages = insertKV pkg (mapVals bytesNew D) w.packages
      from rfl]
  rw [lookup2_insert_self, lookupKV_mapVals, hpath]
  rfl

/-- Witness for C3: the empty world fetches the demo archive for
`/lib.typ`; a second lookup of `/lib.typ` then hits memory. -/
theorem c3_cache_hit_after_fetch_witness :
    get_package_file
        { worldEmpty with
          packages := (get_package_file worldEmpty envNetDemo specDemo
            "/lib.typ".data).packages }
        envOffline specDemo "/lib.typ".data =
      ⟨.ok (bytesNew [104, 105]),
        (get_package_file worldEmpty envNetDemo specDemo
          "/lib.typ".data).packages, false, none⟩ :=
  c3_cache_hit_after_fetch worldEmpty envNetDemo specDemo "/lib.typ".data
    [("/lib.typ".data, [104, 105])] rfl rfl rfl "/lib.typ".data [104, 105]
    rfl envOffline

/-- C6: with downloads disabled, a `(spec, path)` pre-seeded via
`with_package` is answered from memory with no downloader invocation and
no network request, and a lookup in an unseeded package fails with a
package-not-found error, again with no downloader invocation and no
network request. -/
theorem c6_downloads_disabled :
    (∀ (src : RStr) (o : CompileOptions) (spec : PackageSpec) (fs : FileSet)
        (path : RStr) (c : ByteSeq) (env : DownloadEnv),
      lookupKV path (fs.map (fun pc => (normalize_path pc.1, pc.2))) = some c →
      get_package_file
          ((CompileWorld.new src (o.with_package spec fs)).with_downloads false)
          env spec path =
        ⟨.ok (bytesNew c),
          ((CompileWorld.new src (o.with_package spec fs)).with_downloads
            false).packages, false, none⟩) ∧
    (∀ (w : CompileWorld) (env : DownloadEnv) (spec : PackageSpec)
        (path : RStr),
      w.allowDownloads = false → lookupKV spec w.packages = none →
      get_package_file w env spec path =
        ⟨.error (.pkg (.notFound spec)), w.packages, false, none⟩) := by
  constructor
  · intro src o spec fs path c env hc
    refine gpf_hit env ?_
    simp [lookup2, CompileWorld.new, CompileWorld.with_downloads,
      CompileOptions.with_package, lookupKV_mapVals, lookupKV_insert_self, hc]
  · intro w env spec path hw hm
    exact gpf_noDownloads env hw (lookup2_of_spec_none hm path)

/-- Witness for C6: the seeded demo package serves `/lib.typ` from
memory with downloads off, and in the no-download empty world any
package lookup fails with a package-not-found error. -/
theorem c6_downloads_disabled_witness :
    get_package_file
        ((CompileWorld.new "x".data (CompileOptions.new.with_package specDemo
          [("/lib.typ".data, [104, 105])])).with_downloads false)
        envOffline specDemo "/lib.typ".data =
      ⟨.ok (bytesNew [104, 105]),
        ((CompileWorld.new "x".data (CompileOptions.new.with_package specDemo
          [("/lib.typ".data, [104, 105])])).with_downloads false).packages,
        false, none⟩ ∧
    get_package_file (worldEmpty.with_downloads false) envOffline specDemo
        "/q.typ".data =
      ⟨.error (.pkg (.notFound specDemo)),
        (worldEmpty.with_downloads false).packages, false, none⟩ :=
  ⟨c6_downloads_disabled.1 "x".data CompileOptions.new specDemo
      [("/lib.typ".data, [104, 105])] "/lib.typ".data [104, 105] envOffline
      (by decide),
    c6_downloads_disabled.2 (worldEmpty.with_downloads false) envOffline
      specDemo "/q.typ".data rfl rfl⟩

/-- C10: when downloads are allowed and the download succeeds but the
downloaded set lacks the requested path, `get_package_file` still inserts
the entire downloaded set into the cache under the spec and returns
`notFound` for the path; lookups of other paths of that package then hit
memory. -/
theorem c10_error_path_merges (w : CompileWorld) (env : DownloadEnv)
    (pkg : PackageSpec) (path : RStr) (D : FileSet)
    (hw : w.allowDownloads = true)
    (hmiss : lookup2 w.packages pkg path = none)
    (hdl : (download_package env pkg).result = .ok D)
    (habs : lookupKV path D = none) :
    (get_package_file w env pkg path).result = .error (.notFound path) ∧
    (get_package_file w env pkg path).packages =
      insertKV pkg (mapVals bytesNew D) w.packages ∧
    (∀ (q : RStr) (c : ByteSeq) (env' : DownloadEnv), lookupKV q D = some c →
      get_package_file
          { w with packages := (get_package_file w env pkg path).packages }
          env' pkg q =
        ⟨.ok (bytesNew c), (get_package_file w env pkg path).packages,
          false, none⟩) := by
  have h := gpf_miss_dl path hw hmiss hdl
  refine ⟨?_, ?_, ?_⟩
  · rw [h]; simp [habs]
  · rw [h]
  · intro q c env' hq
    rw [h]
    refine gpf_hit env' ?_
    rw [show ({ w with packages := insertKV pkg (mapVals bytesNew D) w.packages}
        : CompileWorld).packages =
        insertKV pkg (mapVals bytesNew D) w.packages from rfl]
    rw [lookup2_insert_self, lookupKV_mapVals, hq]
    rfl

/-- Witness for C10: the demo archive lacks `/nope.typ`; the lookup fails
with `notFound` yet the fetched set is cached and `/lib.typ` then hits
memory. -/
theorem c10_error_path_merges_witness :
    (get_package_file worldEmpty envNetDemo specDemo "/nope.typ".data).result =
      .error (.notFound "/nope.typ".data) ∧
    get_package_file
        { worldEmpty with
          packages := (get_package_file worldEmpty envNetDemo specDemo
            "/nope.typ".data).packages }
        envOffline specDemo "/lib.typ".data =
      ⟨.ok (bytesNew [104, 105]),
        (get_package_file worldEmpty envNetDemo specDemo
          "/nope.typ".data).packages, false, none⟩ := by
  have h := c10_error_path_merges worldEmpty envNetDemo specDemo
    "/nope.typ".data [("/lib.typ".data, [104, 105])] rfl rfl rfl rfl
  exact ⟨h.1, h.2.2 "/lib.typ".data [104, 105] envOffline rfl⟩

/-- C5: a package fetch first consults the on-disk cache: when the
directory `cache-root/namespace/name/version` exists, its files are read
and returned with no network request; only otherwise is a GET issued to
`https://packages.typst.org/preview/name-version.tar.gz`, whose unpacked
archive becomes a path-to-bytes mapping holding exactly the regular-file
entries with their paths re-rooted to `/`. -/
theorem c5_disk_then_network (env : DownloadEnv) (spec : PackageSpec) :
    (∀ dir, package_dir env spec = some dir → env.dirExists dir = true →
      download_package env spec = ⟨env.readDir dir, none⟩) ∧
    ((∀ dir, package_dir env spec = some dir → env.dirExists dir = false) →
      download_package env spec =
        ⟨(env.http (packageUrl spec)).map extractEntries,
          some (packageUrl spec)⟩) ∧
    (∀ (entries : List TarEntry) (kv : RStr × ByteSeq),
      kv ∈ extractEntries entries →
      ∃ e ∈ entries, e.isFile = true ∧ kv = ('/' :: e.path, e.content)) := by
  refine ⟨?_, ?_, ?_⟩
  · intro dir hdir hex
    simp [download_package, hdir, hex]
  · intro hno
    cases hd : package_dir env spec with
    | none =>
        cases hh : env.http (packageUrl spec) <;>
          simp [download_package, downloadFromNet, hd, hh, Except.map]
    | some dir =>
        cases hh : env.http (packageUrl spec) <;>
          simp [download_package, downloadFromNet, hd, hno dir hd, hh,
            Except.map]
  · intro entries kv h
    rcases extract_foldl_mem entries [] kv h with h0 | hm
    · cases h0
    · exact hm

/-- Witness for C5: with the package directory present on disk the
download is answered from disk with no request; with it absent the demo
registry URL is requested and the archive is unpacked. -/
theorem c5_disk_then_network_witness :
    download_package envDiskDemo specDemo = ⟨.ok [("/x.typ".data, [7])], none⟩ ∧
    download_package envNetDemo specDemo =
      ⟨(envNetDemo.http (packageUrl specDemo)).map extractEntries,
        some (packageUrl specDemo)⟩ := by
  constructor
  · have h := (c5_disk_then_network envDiskDemo specDemo).1
      "/home/user/.cache/typst/packages/preview/demo/0.1.0".data rfl rfl
    exact h.trans rfl
  · exact (c5_disk_then_network envNetDemo specDemo).2.1 (fun dir _ => rfl)

/-- C7: for package-scoped identifiers, `resolve_source` takes the bytes
produced by the package-cache chain and decodes them as UTF-8, returning
the decoded text on success and the distinct `invalidUtf8` error (not
`notFound`) when the bytes are present but invalid; plain non-main paths
fail with `notFound`. -/
theorem c7_source_utf8 (w : CompileWorld) (env : DownloadEnv)
    (pkg : PackageSpec) (path : RStr) (hmain : w.main.id.package = none) :
    (∀ e, (get_package_file w env pkg path).result = .error e →
      (w.source env ⟨some pkg, path⟩).result = .error e) ∧
    (∀ bs text, (get_package_file w env pkg path).result = .ok bs →
      utf8Decode bs = some text →
      (w.source env ⟨some pkg, path⟩).result =
        .ok (Source.new ⟨some pkg, path⟩ text)) ∧
    (∀ bs, (get_package_file w env pkg path).result = .ok bs →
      utf8Decode bs = none →
      (w.source env ⟨some pkg, path⟩).result = .error .invalidUtf8) ∧
    FileError.invalidUtf8 ≠ FileError.notFound path ∧
    (∀ p, FileId.mk none p ≠ w.main.id →
      (w.source env ⟨none, p⟩).result = .error (.notFound p)) := by
  have hne : (⟨some pkg, path⟩ : FileId) ≠ w.main.id := by
    intro h
    rw [← h] at hmain
    exact Option.noConfusion hmain
  refine ⟨?_, ?_, ?_, ?_, ?_⟩
  · intro e he
    simp [CompileWorld.source, hne, he]
  · intro bs text hok hdec
    simp [CompileWorld.source, hne, hok, hdec]
  · intro bs hok hdec
    simp [CompileWorld.source, hne, hok, hdec]
  · intro h
    exact FileError.noConfusion h
  · intro p hp
    simp [CompileWorld.source, hp]

/-- Witness for C7: in the seeded world, `/bad.typ` (bytes `[255]`)
yields `invalidUtf8`, `/good.typ` (bytes of `hi`) yields the decoded
text, and the plain path `/other.typ` yields `notFound`. -/
theorem c7_source_utf8_witness :
    (worldUtf8.source envOffline ⟨some specDemo, "/bad.typ".data⟩).result =
      .error .invalidUtf8 ∧
    (worldUtf8.source envOffline ⟨some specDemo, "/good.typ".data⟩).result =
      .ok (Source.new ⟨some specDemo, "/good.typ".data⟩ "hi".data) ∧
    (worldUtf8.source envOffline ⟨none, "/other.typ".data⟩).result =
      .error (.notFound "/other.typ".data) := by
  refine ⟨?_, ?_, ?_⟩
  · exact (c7_source_utf8 worldUtf8 envOffline specDemo "/bad.typ".data
      rfl).2.2.1 [255] rfl rfl
  · exact (c7_source_utf8 worldUtf8 envOffline specDemo "/good.typ".data
      rfl).2.1 [104, 105] "hi".data rfl rfl
  · exact (c7_source_utf8 worldUtf8 envOffline specDemo "/good.typ".data
      rfl).2.2.2.2 "/other.typ".data (by decide)

/-- C9 counterexample: the offset of 1193047 hours is far outside the
representable fixed-offset range (its seconds value is not strictly
between -86400 and 86400), yet `today` returns a datetime rather than
none: the `as i32` cast wraps 1193047 * 3600 = 4294969200 to 1904
seconds, which `east_opt` accepts. -/
theorem c9_counterexample :
    ¬(-86400 < (1193047 : Int) * 3600 ∧ (1193047 : Int) * 3600 < 86400) ∧
    today clockConst (some 1193047) = some ⟨2024, 1, 1, 0, 0, 0⟩ := by
  constructor
  · decide
  · rfl

/-- C9 (amended): `today` returns none exactly when the offset pipeline
or the calendar conversion fails: it is none whenever the offset in
seconds, truncated to 64 then 32 bits as the code computes it, falls
outside the fixed-offset range, and whenever the calendar components of
the chosen instant fail to convert; offsets whose truncated seconds value
wraps into range are accepted. -/
theorem c9_today_none_cases :
    (∀ (clock : Clock) (hours : Int),
      east_opt (toI32 (toI64 (hours * 3600))) = none →
      today clock (some hours) = none) ∧
    (∀ (clock : Clock) (hours secs : Int),
      east_opt (toI32 (toI64 (hours * 3600))) = some secs →
      datetimeFrom (clock.localAt secs) = none →
      today clock (some hours) = none) ∧
    (∀ clock : Clock, datetimeFrom clock.localDefault = none →
      today clock none = none) := by
  refine ⟨?_, ?_, ?_⟩
  · intro clock hours h
    simp [today, h]
  · intro clock hours secs h hd
    simp [today, h, hd]
  · intro clock h
    simp [today, h]

/-- Witness for C9 (amended): a 24-hour offset does not wrap, is rejected
by `east_opt`, and `today` returns none. -/
theorem c9_today_none_cases_witness : today clockConst (some 24) = none :=
  c9_today_none_cases.1 clockConst 24 (by decide)

end DioxusTypst
